import Mathlib

/-!
Verification of the pfxsigner orchestration layer against its design
specification.  The Go sources (cli.go, init.go, server.go, main.go,
internal/processor/processor.go) are shallowly embedded: pure logic is
translated into executable Lean functions; the external collaborators
(the unipdf document engine, pkcs12 decoding, the file system, JSON
unmarshalling) are modelled as an explicit oracle environment `Env`,
and the I/O a run performs is recorded as an explicit effect trace.
-/

namespace Pfxsigner

/-- A loaded identity: `Certificate` from processor.go holds an RSA private
key and an x509 certificate, both opaque to the orchestration layer and
modelled as abstract handles. -/
structure Certificate where
  privKey : Nat
  cert : Nat
deriving DecidableEq

/-- The certificate registry: the `certs map[string]*Certificate` field of
`Processor`, modelled as an association list with unique keys (uniqueness is
maintained by `LoadPFX`, which refuses duplicate names). -/
abbrev Registry := List (String × Certificate)

/-- Go map read `p.certs[name]`: first-match association lookup. -/
def lookupCert : Registry → String → Option Certificate
  | [], _ => none
  | (k, c) :: rest, name => if k = name then some c else lookupCert rest name

/-- `SignCoords` from processor.go.  The float64 rectangle coordinates are
carried opaquely (the embedded code never computes with them), so they are
modelled as integers. -/
structure SignCoords where
  pages : List Int
  x1 : Int
  x2 : Int
  y1 : Int
  y2 : Int
deriving DecidableEq

/-- `SignStyle` from processor.go.  float64 fields are again opaque payload.
The `...RGBA` fields are the parsed colour channels filled in by
`parseProps` (Go stores them as `model.PdfColorDeviceRGB`). -/
structure SignStyle where
  autoSize : Bool
  font : String
  fontSize : Int
  lineHeight : Int
  fontColor : String
  bgColor : String
  borderSize : Int
  borderColor : String
  fontColorRGBA : Nat × Nat × Nat
  bgColorRGBA : Nat × Nat × Nat
  borderColorRGBA : Nat × Nat × Nat
deriving DecidableEq

/-- `SignProps` from processor.go: the signature metadata.  Go's
`[]map[string]string` for the annotation lines is modelled as a list of
association lists. -/
structure SignProps where
  name : String
  reason : String
  location : String
  annotations : List (List (String × String))
  style : SignStyle
  coords : List SignCoords
deriving DecidableEq

/-- The Go zero value of `SignStyle` (what `var pr processor.SignProps`
starts from in `parseProps`). -/
def zeroSignStyle : SignStyle :=
  { autoSize := false, font := "", fontSize := 0, lineHeight := 0,
    fontColor := "", bgColor := "", borderSize := 0, borderColor := "",
    fontColorRGBA := (0, 0, 0), bgColorRGBA := (0, 0, 0),
    borderColorRGBA := (0, 0, 0) }

/-- The Go zero value of `SignProps`. -/
def zeroSignProps : SignProps :=
  { name := "", reason := "", location := "", annotations := [],
    style := zeroSignStyle, coords := [] }

/-- `Job` from processor.go: a queued signing job.  `Password` is `[]byte`
in Go, modelled as a list of byte values. -/
structure Job where
  certName : String
  inFile : String
  outFile : String
  password : List Nat
deriving DecidableEq

/-- The two counters of `Stats` from processor.go (`StartTime` carries no
logic and is omitted). -/
structure Stats where
  jobsDone : Nat
  jobsFailed : Nat
deriving DecidableEq

/-! ### Hex colour parsing (init.go `parseHexColor`)

`parseHexColor` delegates to `fmt.Sscanf` with the formats
`"#%02x%02x%02x"` and `"#%1x%1x%1x"`.  The scanner semantics of `Sscanf`
relevant here: a literal format character must match the input exactly; a
`%x` verb first discards leading spaces (a newline in the input, where the
format has none, is an error), then consumes at least one and at most
`width` hex digits; input left over after the last verb is ignored. -/

/-- Hex digit test used by the `%x` verb of the scanner. -/
def isHexDigit (c : Char) : Bool :=
  (48 ≤ c.toNat && c.toNat ≤ 57) || (97 ≤ c.toNat && c.toNat ≤ 102) ||
  (65 ≤ c.toNat && c.toNat ≤ 70)

/-- Numeric value of a hex digit. -/
def hexVal (c : Char) : Nat :=
  if 48 ≤ c.toNat && c.toNat ≤ 57 then c.toNat - 48
  else if 97 ≤ c.toNat && c.toNat ≤ 102 then c.toNat - 87
  else if 65 ≤ c.toNat && c.toNat ≤ 70 then c.toNat - 55
  else 0

/-- Characters `fmt`'s scanner skips before a verb (space and the ASCII
control whitespace other than newline). -/
def isScanSpace (c : Char) : Bool :=
  c.toNat = 32 || c.toNat = 9 || c.toNat = 11 || c.toNat = 12 || c.toNat = 13

/-- `ss.SkipSpace` for `Sscanf`: discard leading spaces; a newline where the
format has none is a scan error (`none`). -/
def skipSp : List Char → Option (List Char)
  | [] => some []
  | c :: cs =>
    if isScanSpace c then skipSp cs
    else if c.toNat = 10 then none
    else some (c :: cs)

/-- Consume up to `w` hex digits, accumulating into `acc`; returns the value,
the number of digits consumed, and the remaining input. -/
def takeHexUpTo : Nat → Nat → List Char → Nat × Nat × List Char
  | 0, acc, cs => (acc, 0, cs)
  | _ + 1, acc, [] => (acc, 0, [])
  | w + 1, acc, c :: cs =>
    if isHexDigit c then
      let r := takeHexUpTo w (acc * 16 + hexVal c) cs
      (r.1, r.2.1 + 1, r.2.2)
    else (acc, 0, c :: cs)

/-- One `%wx` verb: skip spaces, then read between 1 and `w` hex digits. -/
def scanHex (w : Nat) (cs : List Char) : Option (Nat × List Char) :=
  match skipSp cs with
  | none => none
  | some cs1 =>
    let r := takeHexUpTo w 0 cs1
    if r.2.1 = 0 then none else some (r.1, r.2.2)

/-- `fmt.Sscanf(s, "#%wx%wx%wx", &r, &g, &b)`: literal `#`, then three hex
verbs of width `w`; trailing input is ignored. -/
def sscanfHex (w : Nat) (cs : List Char) : Option (Nat × Nat × Nat) :=
  match cs with
  | c :: rest =>
    if c = '#' then
      (scanHex w rest).bind fun p1 =>
        (scanHex w p1.2).bind fun p2 =>
          (scanHex w p2.2).map fun p3 => (p1.1, p2.1, p3.1)
    else none
  | [] => none

/-- init.go `parseHexColor`: switch on the byte length of the string; 7-byte
strings use width-2 verbs, 4-byte strings use width-1 verbs with each digit
then multiplied by 17; every other length is an error.  (Go also returns the
partially filled colour alongside a non-nil error; no embedded caller reads
the colour in the error case, so the model returns `none` there.) -/
def parseHexColor (s : String) : Option (Nat × Nat × Nat) :=
  if s.utf8ByteSize = 7 then sscanfHex 2 s.data
  else if s.utf8ByteSize = 4 then
    match sscanfHex 1 s.data with
    | none => none
    | some (r, g, b) => some (r * 17, g * 17, b * 17)
  else none

/-- Claim-side form (the words of the spec, for comparison with
`parseHexColor`): exactly `#` followed by six, or three, hex digits. -/
def specHexColorForm (s : String) : Bool :=
  match s.data with
  | ['#', a, b, c, d, e, f] =>
    isHexDigit a && isHexDigit b && isHexDigit c &&
    isHexDigit d && isHexDigit e && isHexDigit f
  | ['#', a, b, c] => isHexDigit a && isHexDigit b && isHexDigit c
  | _ => false

/-! ### The oracle environment

All external collaborators are modelled as one record of oracles.  File
handles, PDF reader handles and byte buffers are abstract (`Nat` handles or
`List Nat` byte strings); each oracle answers `none`/`false` exactly where
the corresponding Go call returns a non-nil error. -/

/-- Oracles for the file system, the pkcs12 decoder, the unipdf engine and
JSON unmarshalling. -/
structure Env where
  /-- `ioutil.ReadFile` in `LoadPFX`: `none` is a read error. -/
  readFile : String → Option (List Nat)
  /-- `pkcs12.DecodeChain`: `none` is a decode failure. -/
  decodeChain : List Nat → String → Option Certificate
  /-- `model.NewPdfReader` applied to the original input handle. -/
  newPdfReader : Nat → Option Nat
  /-- The whole `lockPDF` body (encrypt-and-rewrite through the writer
  path): `none` is any failure inside it, `some` the locked byte string. -/
  lockPDF : Nat → List Nat → Option (List Nat)
  /-- `model.NewPdfReader` applied to the freshly locked bytes. -/
  newPdfReaderBytes : List Nat → Option Nat
  /-- `r.Decrypt(password)` returns `(ok, err)`; modelled as
  (ok, an error occurred). -/
  decryptPDF : Nat → List Nat → Bool × Bool
  /-- The `signPDF` body plus appender serialization: `none` is a signing
  failure, `some` the signed output bytes. -/
  signPDF : Certificate → SignProps → Nat → Option (List Nat)
  /-- `os.Open` in `Listen`: `none` is an open error. -/
  openFile : String → Option Nat
  /-- `ioutil.WriteFile` in `Listen`: `false` is a write error. -/
  writeFile : String → List Nat → Bool
  /-- `json.Unmarshal` into `SignProps`: `none` is a JSON error. -/
  unmarshalProps : String → Option SignProps

/-! ### ProcessDoc (processor.go) -/

/-- The error exits of `ProcessDoc` (each corresponds to one
`errors.New`/`fmt.Errorf` in the Go function). -/
inductive PdfErr where
  | unknownCert (name : String)
  | openErr
  | lockErr
  | reopenErr
  | decryptErr
  | signErr
deriving DecidableEq

/-- The exact error strings `ProcessDoc` produces. -/
def pdfErrString : PdfErr → String
  | .unknownCert name => "unknown certificate '" ++ name ++ "'"
  | .openErr => "error opening PDF"
  | .lockErr => "error locking PDF with password"
  | .reopenErr => "error re-opening PDF after locking"
  | .decryptErr => "error re-reading PDF after locking"
  | .signErr => "error signing PDF after locking"

/-- The observable I/O steps of one `ProcessDoc` run, in order. -/
inductive Effect where
  /-- `model.NewPdfReader(b)` on the original input (the only read of the
  input file inside `ProcessDoc`). -/
  | openInput
  /-- the `lockPDF` call: encryption applied through the writer path. -/
  | lockEnc
  /-- `model.NewPdfReader` on the locked bytes. -/
  | reopenLocked
  /-- `r.Decrypt(password)` on the re-opened document. -/
  | decryptLocked
  /-- the `signPDF` call plus serialization. -/
  | signDoc
deriving DecidableEq

/-- processor.go `ProcessDoc`: resolve the certificate, open the document,
optionally lock it (non-empty password only) with a re-open/decrypt
round-trip, then sign and serialize.  Returns the Go result together with
the trace of engine calls performed. -/
def ProcessDoc (env : Env) (certs : Registry) (certName : String)
    (pr : SignProps) (password : List Nat) (b : Nat) :
    Except PdfErr (List Nat) × List Effect :=
  match lookupCert certs certName with
  | none => (.error (.unknownCert certName), [])
  | some cert =>
    match env.newPdfReader b with
    | none => (.error .openErr, [.openInput])
    | some rd0 =>
      -- `if len(password) > 0` — the optional lock stage.
      let locked : Except PdfErr Nat × List Effect :=
        if password.length > 0 then
          match env.lockPDF rd0 password with
          | none => (.error .lockErr, [.lockEnc])
          | some lockedBytes =>
            match env.newPdfReaderBytes lockedBytes with
            | none => (.error .reopenErr, [.lockEnc, .reopenLocked])
            | some r =>
              let dec := env.decryptPDF r password
              if !dec.1 || dec.2 then
                (.error .decryptErr, [.lockEnc, .reopenLocked, .decryptLocked])
              else (.ok r, [.lockEnc, .reopenLocked, .decryptLocked])
        else (.ok rd0, [])
      match locked with
      | (.error e, tr) => (.error e, .openInput :: tr)
      | (.ok rd, tr) =>
        match env.signPDF cert pr rd with
        | none => (.error .signErr, .openInput :: tr ++ [.signDoc])
        | some out => (.ok out, .openInput :: tr ++ [.signDoc])

/-- No encryption-related engine call appears in the trace. -/
def lockFree (tr : List Effect) : Bool :=
  tr.all fun e => e ≠ .lockEnc && e ≠ .reopenLocked && e ≠ .decryptLocked

/-- Claim-side pipeline (the words of the spec, for comparison with
`ProcessDoc`): open a reader on the original input bytes and produce the
output solely from the sign stage, with no lock/encrypt activity. -/
def signOnlyPipeline (env : Env) (cert : Certificate) (pr : SignProps)
    (b : Nat) : Except PdfErr (List Nat) × List Effect :=
  match env.newPdfReader b with
  | none => (.error .openErr, [.openInput])
  | some rd =>
    match env.signPDF cert pr rd with
    | none => (.error .signErr, [.openInput, .signDoc])
    | some out => (.ok out, [.openInput, .signDoc])

/-! ### LoadPFX (processor.go) -/

/-- How one `LoadPFX` call ends.  `fatal` is `log.Fatalf`: the process
terminates and the call never returns to its caller. -/
inductive LoadResult where
  | ok
  | errDuplicate
  | errRead
  | fatal
deriving DecidableEq

/-- processor.go `LoadPFX`: reject a duplicate name, read the archive file
(returning the read error to the caller), then decode it — but a decode
failure runs `log.Fatalf`, terminating the process instead of returning.
On success the certificate is stored under `name`. -/
def LoadPFX (env : Env) (certs : Registry) (name path password : String) :
    LoadResult × Registry :=
  if (lookupCert certs name).isSome then (.errDuplicate, certs)
  else
    match env.readFile path with
    | none => (.errRead, certs)
    | some pfxData =>
      match env.decodeChain pfxData password with
      | none => (.fatal, certs)
      | some c => (.ok, certs ++ [(name, c)])

/-! ### Batch front end (cli.go `readJobsFromStdin`) -/

/-- `unicode.IsSpace`, the cut set of `strings.TrimSpace`: the ASCII
whitespace controls, NEL, NBSP and the Unicode space separators. -/
def goIsSpace (c : Char) : Bool :=
  c = ' ' || c = '\t' || c = '\n' || c = '\x0b' || c = '\x0c' || c = '\r' ||
  c = '\u0085' || c = '\u00a0' || c = '\u1680' ||
  (decide ('\u2000' ≤ c) && decide (c ≤ '\u200a')) ||
  c = '\u2028' || c = '\u2029' || c = '\u202f' || c = '\u205f' || c = '\u3000'

/-- `strings.TrimSpace`: drop leading and trailing whitespace runes. -/
def trimChars (cs : List Char) : List Char :=
  ((cs.dropWhile goIsSpace).reverse.dropWhile goIsSpace).reverse

/-- `strings.Split(t, "|")`: split on every pipe, keeping empty fields; a
string with n pipes yields n+1 chunks. -/
def splitPipe : List Char → List (List Char)
  | [] => [[]]
  | c :: rest =>
    match splitPipe rest with
    | [] => [[]]
    | h :: t => if c = '|' then [] :: h :: t else (c :: h) :: t

/-- How the scanner loop body in `readJobsFromStdin` treats one line. -/
inductive LineResult where
  /-- empty after trimming: skipped silently (`continue` with no log). -/
  | blank
  /-- wrong field count or an empty field: logged and skipped. -/
  | invalid
  /-- a well-formed line: a job is sent on the channel. -/
  | job (j : Job)
deriving DecidableEq

/-- One iteration of the scanner loop in cli.go `readJobsFromStdin`: trim
the line, skip it if empty, split on `|`, require exactly three non-empty
chunks, and build the `Job` (its `Password` field is never set, so it stays
the zero value).  The second `if len(line) == 0` in the source re-tests the
already-known-nonempty line and is dead code. -/
def parseJobLine (line : String) : LineResult :=
  let t := trimChars line.data
  if t = [] then .blank
  else
    match splitPipe t with
    | [c0, c1, c2] =>
      if c0 = [] || c1 = [] || c2 = [] then .invalid
      else .job { certName := String.mk c0, inFile := String.mk c1,
                  outFile := String.mk c2, password := [] }
    | _ => .invalid

/-- cli.go `readJobsFromStdin` over a finite stdin: the jobs sent to the
channel, in order. -/
def readJobsFromStdin (lines : List String) : List Job :=
  lines.filterMap fun l =>
    match parseJobLine l with
    | .job j => some j
    | _ => none

/-- Claim-side acceptance test (the words of the spec, for comparison with
`parseJobLine`): the trimmed line splits on `|` into exactly three
non-empty fields. -/
def specAcceptsLine (line : String) : Bool :=
  match splitPipe (trimChars line.data) with
  | [c0, c1, c2] => !c0.isEmpty && !c1.isEmpty && !c2.isEmpty
  | _ => false

/-! ### The worker loop (processor.go `Listen`)

Each queue receive runs the loop body once: provisionally count the job as
failed, then open the input, process it and write the output, and only on
full success flip the provisional failure into a success.  The counters
live under one mutex, and the net effect of one iteration on `Stats` is a
single atomic `+1` to exactly one counter, so the pool total over any
interleaving of workers equals a sequential fold over the dequeued jobs. -/

/-- One iteration of the `for j := range q` loop in `Listen`. -/
def listenStep (env : Env) (certs : Registry) (props : SignProps)
    (st : Stats) (j : Job) : Stats :=
  -- Pre-increment the fail counter (multiple failure exits follow).
  let st1 : Stats := { st with jobsFailed := st.jobsFailed + 1 }
  match env.openFile j.inFile with
  | none => st1
  | some f =>
    match (ProcessDoc env certs j.certName props j.password f).1 with
    | .error _ => st1
    | .ok out =>
      if env.writeFile j.outFile out then
        { jobsDone := st1.jobsDone + 1, jobsFailed := st1.jobsFailed - 1 }
      else st1

/-- Draining a list of jobs through the loop of `Listen`. -/
def runJobs (env : Env) (certs : Registry) (props : SignProps)
    (st : Stats) (jobs : List Job) : Stats :=
  jobs.foldl (listenStep env certs props) st

/-! ### Configuration parsing (init.go `parseProps`) -/

/-- The error exits of `parseProps`. -/
inductive PropsErr where
  | jsonErr
  | fontColorErr
  | bgColorErr
  | borderColorErr
deriving DecidableEq

/-- The message prefix each `parseProps` exit produces. -/
def propsErrString : PropsErr → String
  | .jsonErr => "error parsing JSON properties file"
  | .fontColorErr => "invalid `fontColor`"
  | .bgColorErr => "invalid `bgColor`"
  | .borderColorErr => "invalid `borderColor`"

/-- init.go `parseProps`: unmarshal the JSON blob, then validate and fill in
the three colours.  Mirrors Go's `return pr, err` pairs: the (possibly
partially filled) props value is returned alongside any error — the server
handler reads it even in the error case. -/
def parseProps (env : Env) (b : String) : SignProps × Option PropsErr :=
  match env.unmarshalProps b with
  | none => (zeroSignProps, some .jsonErr)
  | some pr0 =>
    match parseHexColor pr0.style.fontColor with
    | none => (pr0, some .fontColorErr)
    | some fc =>
      let pr1 := { pr0 with style := { pr0.style with fontColorRGBA := fc } }
      match parseHexColor pr1.style.bgColor with
      | none => (pr1, some .bgColorErr)
      | some bg =>
        let pr2 := { pr1 with style := { pr1.style with bgColorRGBA := bg } }
        match parseHexColor pr2.style.borderColor with
        | none => (pr2, some .borderColorErr)
        | some bc =>
          ({ pr2 with style := { pr2.style with borderColorRGBA := bc } },
           none)

/-! ### The HTTP handler (server.go `handleSignDocument`)

The handler's interaction with the `http.ResponseWriter` is recorded as a
list of actions in the order the Go code performs them.  Note the source
quirk this model preserves: when the `props` form field is present but
malformed, `sendErrorResponse` runs WITHOUT a following `return`, so the
handler keeps going with the props value that came back next to the
error. -/

/-- A body chunk written to the response. -/
inductive Body where
  /-- a marshalled `httpResp{Status: "error", Message: message}` envelope. -/
  | jsonEnvelope (status message : String)
  /-- raw signed-PDF bytes. -/
  | pdf (bytes : List Nat)
deriving DecidableEq

/-- One call against the `http.ResponseWriter`. -/
inductive RespAction where
  | setHeader (k v : String)
  | writeHeader (code : Nat)
  | write (b : Body)
deriving DecidableEq

/-- server.go `sendErrorResponse`: JSON content type, status code, then the
marshalled error envelope. -/
def sendErrorResponse (message : String) (code : Nat) : List RespAction :=
  [.setHeader ("Content-Type") ("application/json; charset=utf-8"),
   .writeHeader code,
   .write (.jsonEnvelope ("error") message)]

/-- The parts of one HTTP signing request the handler reads: the `props`
form value, the certificate name from the URL, whether `FormFile` succeeds,
and the uploaded file handle. -/
structure HttpReq where
  propsField : String
  certName : String
  fileOk : Bool
  file : Nat
deriving DecidableEq

/-- Process-wide state the handler closes over: the processor's registry
and its default props (`proc.GetProps()`). -/
structure ServerState where
  certs : Registry
  defaultProps : SignProps
deriving DecidableEq

/-- server.go `handleSignDocument`.  Go passes an empty password to
`ProcessDoc`, so the lock stage never runs on this path. -/
def handleSignDocument (env : Env) (st : ServerState) (r : HttpReq) :
    List RespAction :=
  let parsed : SignProps × List RespAction :=
    if 0 < r.propsField.utf8ByteSize then
      match parseProps env r.propsField with
      | (pr, some e) =>
        -- missing `return`: the error envelope is sent, then `props = pr`
        -- and execution falls through.
        (pr, sendErrorResponse
          ("Error reading JSON `request`: " ++ propsErrString e) 400)
      | (pr, none) => (pr, [])
    else (st.defaultProps, [])
  let props := parsed.1
  let acts := parsed.2
  if !r.fileOk then
    acts ++ sendErrorResponse ("Invalid file in the `file` field.") 400
  else
    match (ProcessDoc env st.certs r.certName props [] r.file).1 with
    | .error e =>
      acts ++ sendErrorResponse
        ("Error processing document: " ++ pdfErrString e) 500
    | .ok out =>
      acts ++ [.setHeader ("content-type") ("application/pdf"), .write (.pdf out)]

/-! ### Concrete oracle assignments used to instantiate the theorems -/

/-- A concrete certificate handle. -/
def cert0 : Certificate := { privKey := 1, cert := 2 }

/-- A registry holding `cert0` under the name `c`. -/
def registry1 : Registry := [("c", cert0)]

/-- A concrete oracle assignment: every engine call succeeds, pkcs12
decoding accepts only the password `pw`, and the JSON oracle accepts only
the blob `{}` (as `zeroSignProps`). -/
def env0 : Env :=
  { readFile := fun _ => some [7],
    decodeChain := fun _ password => if password = "pw" then some cert0 else none,
    newPdfReader := fun b => some (b + 100),
    lockPDF := fun rd password => some (rd :: password),
    newPdfReaderBytes := fun bs => some bs.length,
    decryptPDF := fun _ _ => (true, false),
    signPDF := fun cert _ rd => some [cert.privKey, rd],
    openFile := fun _ => some 1,
    writeFile := fun _ _ => true,
    unmarshalProps := fun s => if s = "{}" then some zeroSignProps else none }

/-- Like `env0` but the archive file is unreadable. -/
def envNoFile : Env := { env0 with readFile := fun _ => none }

/-! ## Helper lemmas about the hex scanner -/

theorem hexVal_le (c : Char) : hexVal c ≤ 15 := by
  unfold hexVal
  repeat' split
  all_goals simp_all only [Bool.and_eq_true, decide_eq_true_eq]
  all_goals omega

theorem isHexDigit_toNat (c : Char) (h : isHexDigit c = true) :
    48 ≤ c.toNat ∧ c.toNat ≤ 102 := by
  unfold isHexDigit at h
  simp only [Bool.or_eq_true, Bool.and_eq_true, decide_eq_true_eq] at h
  omega

theorem skipSp_hex (c : Char) (cs : List Char) (h : isHexDigit c = true) :
    skipSp (c :: cs) = some (c :: cs) := by
  have hn := isHexDigit_toNat c h
  have h1 : isScanSpace c = false := by
    unfold isScanSpace
    simp only [Bool.or_eq_false_iff, decide_eq_false_iff_not]
    omega
  have h2 : ¬ c.toNat = 10 := by omega
  simp [skipSp, h1, h2]

theorem takeHexUpTo_hex2 (a b : Char) (rest : List Char) (acc : Nat)
    (ha : isHexDigit a = true) (hb : isHexDigit b = true) :
    takeHexUpTo 2 acc (a :: b :: rest) =
      ((acc * 16 + hexVal a) * 16 + hexVal b, 2, rest) := by
  simp [takeHexUpTo, ha, hb]

theorem scanHex_hex2 (a b : Char) (rest : List Char)
    (ha : isHexDigit a = true) (hb : isHexDigit b = true) :
    scanHex 2 (a :: b :: rest) = some (hexVal a * 16 + hexVal b, rest) := by
  simp [scanHex, skipSp_hex a _ ha, takeHexUpTo_hex2 a b rest 0 ha hb]

theorem scanHex_hex1 (a : Char) (rest : List Char)
    (ha : isHexDigit a = true) :
    scanHex 1 (a :: rest) = some (hexVal a, rest) := by
  simp [scanHex, skipSp_hex a _ ha, takeHexUpTo, ha]

theorem takeHexUpTo_fst_lt :
    ∀ (w acc : Nat) (cs : List Char),
      (takeHexUpTo w acc cs).1 < (acc + 1) * 16 ^ w := by
  intro w
  induction w with
  | zero =>
    intro acc cs
    simp [takeHexUpTo]
  | succ w ih =>
    intro acc cs
    cases cs with
    | nil =>
      unfold takeHexUpTo
      have hp : 0 < 16 ^ (w + 1) := Nat.pos_pow_of_pos _ (by omega)
      have := Nat.le_mul_of_pos_right (acc + 1) hp
      simp
      omega
    | cons c cs =>
      unfold takeHexUpTo
      by_cases hc : isHexDigit c = true
      · simp only [hc, if_true]
        have h1 := ih (acc * 16 + hexVal c) cs
        have h2 := hexVal_le c
        have h3 : (acc * 16 + hexVal c + 1) * 16 ^ w ≤ (acc + 1) * 16 ^ (w + 1) := by
          rw [pow_succ]
          have h4 : acc * 16 + hexVal c + 1 ≤ (acc + 1) * 16 := by omega
          calc (acc * 16 + hexVal c + 1) * 16 ^ w
              ≤ (acc + 1) * 16 * 16 ^ w := Nat.mul_le_mul_right _ h4
            _ = (acc + 1) * (16 ^ w * 16) := by ring
        omega
      · simp only [hc]
        have hp : 0 < 16 ^ (w + 1) := Nat.pos_pow_of_pos _ (by omega)
        have := Nat.le_mul_of_pos_right (acc + 1) hp
        simp
        omega

theorem scanHex_fst_lt (w : Nat) (cs : List Char) (v : Nat) (rest : List Char)
    (h : scanHex w cs = some (v, rest)) : v < 16 ^ w := by
  unfold scanHex at h
  cases hs : skipSp cs with
  | none => rw [hs] at h; cases h
  | some cs1 =>
    rw [hs] at h
    by_cases hz : (takeHexUpTo w 0 cs1).2.1 = 0
    · simp [hz] at h
    · simp only [hz, if_false] at h
      have hb := takeHexUpTo_fst_lt w 0 cs1
      cases h
      omega

theorem sscanfHex_bounds (w : Nat) (cs : List Char) (r g b : Nat)
    (h : sscanfHex w cs = some (r, g, b)) :
    r < 16 ^ w ∧ g < 16 ^ w ∧ b < 16 ^ w := by
  cases cs with
  | nil => simp [sscanfHex] at h
  | cons c rest =>
    simp only [sscanfHex] at h
    by_cases hc : c = '#'
    · rw [if_pos hc] at h
      rw [Option.bind_eq_some] at h
      obtain ⟨p1, h1, h⟩ := h
      rw [Option.bind_eq_some] at h
      obtain ⟨p2, h2, h⟩ := h
      rw [Option.map_eq_some'] at h
      obtain ⟨p3, h3, h⟩ := h
      cases h
      exact ⟨scanHex_fst_lt w rest p1.1 p1.2 (by rw [h1]),
             scanHex_fst_lt w p1.2 p2.1 p2.2 (by rw [h2]),
             scanHex_fst_lt w p2.2 p3.1 p3.2 (by rw [h3])⟩
    · rw [if_neg hc] at h
      cases h

theorem utf8Size_ascii (c : Char) (h : c.toNat ≤ 127) : c.utf8Size = 1 := by
  unfold Char.utf8Size
  have h1 : c.val ≤ UInt32.ofNatCore 127 Char.utf8Size.proof_1 := by
    rw [UInt32.le_def]
    exact h
  rw [if_pos h1]

theorem utf8Size_hex (c : Char) (h : isHexDigit c = true) : c.utf8Size = 1 :=
  utf8Size_ascii c (by have := isHexDigit_toNat c h; omega)

theorem utf8_go_cons (c : Char) (cs : List Char) :
    String.utf8ByteSize.go (c :: cs) = String.utf8ByteSize.go cs + c.utf8Size :=
  rfl

theorem utf8ByteSize_hex7 (a b c d e f : Char)
    (ha : isHexDigit a = true) (hb : isHexDigit b = true)
    (hc : isHexDigit c = true) (hd : isHexDigit d = true)
    (he : isHexDigit e = true) (hf : isHexDigit f = true) :
    String.utf8ByteSize ⟨['#', a, b, c, d, e, f]⟩ = 7 := by
  show String.utf8ByteSize.go ['#', a, b, c, d, e, f] = 7
  simp only [utf8_go_cons, utf8Size_hex a ha, utf8Size_hex b hb,
    utf8Size_hex c hc, utf8Size_hex d hd, utf8Size_hex e he, utf8Size_hex f hf]
  decide

theorem utf8ByteSize_hex4 (a b c : Char)
    (ha : isHexDigit a = true) (hb : isHexDigit b = true)
    (hc : isHexDigit c = true) :
    String.utf8ByteSize ⟨['#', a, b, c]⟩ = 4 := by
  show String.utf8ByteSize.go ['#', a, b, c] = 4
  simp only [utf8_go_cons, utf8Size_hex a ha, utf8Size_hex b hb,
    utf8Size_hex c hc]
  decide

theorem parseHexColor_hex7 (a b c d e f : Char)
    (ha : isHexDigit a = true) (hb : isHexDigit b = true)
    (hc : isHexDigit c = true) (hd : isHexDigit d = true)
    (he : isHexDigit e = true) (hf : isHexDigit f = true) :
    parseHexColor ⟨['#', a, b, c, d, e, f]⟩ =
      some (hexVal a * 16 + hexVal b, hexVal c * 16 + hexVal d,
            hexVal e * 16 + hexVal f) := by
  unfold parseHexColor
  rw [utf8ByteSize_hex7 a b c d e f ha hb hc hd he hf]
  simp [sscanfHex, scanHex_hex2 a b _ ha hb, scanHex_hex2 c d _ hc hd,
    scanHex_hex2 e f _ he hf]

theorem parseHexColor_hex4 (a b c : Char)
    (ha : isHexDigit a = true) (hb : isHexDigit b = true)
    (hc : isHexDigit c = true) :
    parseHexColor ⟨['#', a, b, c]⟩ =
      some (hexVal a * 17, hexVal b * 17, hexVal c * 17) := by
  unfold parseHexColor
  rw [utf8ByteSize_hex4 a b c ha hb hc]
  simp [sscanfHex, scanHex_hex1 a _ ha, scanHex_hex1 b _ hb,
    scanHex_hex1 c _ hc]

theorem parseHexColor_bounds (s : String) (r g b : Nat)
    (h : parseHexColor s = some (r, g, b)) :
    r ≤ 255 ∧ g ≤ 255 ∧ b ≤ 255 := by
  unfold parseHexColor at h
  by_cases h7 : s.utf8ByteSize = 7
  · rw [if_pos h7] at h
    have := sscanfHex_bounds 2 s.data r g b h
    omega
  · rw [if_neg h7] at h
    by_cases h4 : s.utf8ByteSize = 4
    · rw [if_pos h4] at h
      cases hs : sscanfHex 1 s.data with
      | none => rw [hs] at h; cases h
      | some p =>
        rw [hs] at h
        obtain ⟨r0, g0, b0⟩ := p
        have := sscanfHex_bounds 1 s.data r0 g0 b0 hs
        simp only [Option.some.injEq, Prod.mk.injEq] at h
        obtain ⟨h1, h2, h3⟩ := h
        subst h1; subst h2; subst h3
        omega
    · rw [if_neg h4] at h
      cases h

/-! ## Helper lemmas about the worker loop and the batch front end -/

theorem listenStep_sum (env : Env) (certs : Registry) (props : SignProps)
    (st : Stats) (j : Job) :
    (listenStep env certs props st j).jobsDone
      + (listenStep env certs props st j).jobsFailed
      = st.jobsDone + st.jobsFailed + 1 := by
  unfold listenStep
  cases ho : env.openFile j.inFile with
  | none => simp; omega
  | some f =>
    cases hp : (ProcessDoc env certs j.certName props j.password f).1 with
    | error e => simp [hp]; omega
    | ok out =>
      by_cases hw : env.writeFile j.outFile out
      · simp [hp, hw]; omega
      · simp [hp, hw]; omega

theorem runJobs_sum (env : Env) (certs : Registry) (props : SignProps) :
    ∀ (jobs : List Job) (st : Stats),
      (runJobs env certs props st jobs).jobsDone
        + (runJobs env certs props st jobs).jobsFailed
        = st.jobsDone + st.jobsFailed + jobs.length := by
  intro jobs
  induction jobs with
  | nil => intro st; simp [runJobs]
  | cons j js ih =>
    intro st
    have hstep := listenStep_sum env certs props st j
    have htail := ih (listenStep env certs props st j)
    show (runJobs env certs props (listenStep env certs props st j) js).jobsDone
        + (runJobs env certs props (listenStep env certs props st j) js).jobsFailed
        = st.jobsDone + st.jobsFailed + (j :: js).length
    simp only [List.length_cons]
    omega

theorem parseJobLine_job_shape (line : String) (j : Job)
    (h : parseJobLine line = .job j) : j.password = [] := by
  unfold parseJobLine at h
  by_cases ht : trimChars line.data = []
  · simp [ht] at h
  · simp only [ht, if_neg, if_false] at h
    split at h
    · split at h
      · cases h
      · cases h
        rfl
    · cases h

theorem readJobs_cons_job (line : String) (ls : List String) (j : Job)
    (h : parseJobLine line = .job j) :
    readJobsFromStdin (line :: ls) = j :: readJobsFromStdin ls := by
  simp [readJobsFromStdin, List.filterMap_cons, h]

theorem readJobs_cons_skip (line : String) (ls : List String)
    (h : ∀ j, parseJobLine line ≠ .job j) :
    readJobsFromStdin (line :: ls) = readJobsFromStdin ls := by
  simp only [readJobsFromStdin, List.filterMap_cons]

theorem processDoc_empty_password_lockFree (env : Env) (certs : Registry)
    (certName : String) (props : SignProps) (f : Nat) :
    lockFree (ProcessDoc env certs certName props [] f).2 = true := by
  unfold ProcessDoc
  cases hl : lookupCert certs certName with
  | none => simp [lockFree]
  | some cert =>
    cases hr : env.newPdfReader f with
    | none => simp [lockFree]
    | some rd0 =>
      cases hs : env.signPDF cert props rd0 with
      | none => simp [hs, lockFree]
      | some out => simp [hs, lockFree]

theorem processDoc_nil_eq (env : Env) (certs : Registry) (certName : String)
    (pr : SignProps) (b : Nat) (cert : Certificate)
    (h : lookupCert certs certName = some cert) :
    ProcessDoc env certs certName pr [] b = signOnlyPipeline env cert pr b := by
  unfold ProcessDoc signOnlyPipeline
  rw [h]
  cases hr : env.newPdfReader b with
  | none => rfl
  | some rd0 =>
    cases hs : env.signPDF cert pr rd0 with
    | none => simp [hs]
    | some out => simp [hs]

theorem parseJobLine_spec (line : String) :
    (∃ j, parseJobLine line = .job j) ↔ specAcceptsLine line = true := by
  unfold parseJobLine specAcceptsLine
  by_cases ht : trimChars line.data = []
  · simp [ht, splitPipe]
  · simp only [ht, if_false]
    rcases hs : splitPipe (trimChars line.data) with _ | ⟨c0, _ | ⟨c1, _ | ⟨c2, _ | ⟨c3, rest⟩⟩⟩⟩
    · simp
    · simp
    · simp
    · by_cases h0 : c0 = []
      · simp [h0]
      · by_cases h1 : c1 = []
        · simp [h0, h1]
        · by_cases h2 : c2 = []
          · simp [h0, h1, h2]
          · simp [h0, h1, h2]
    · simp

theorem parseJobLine_job_fields (line : String) (c0 c1 c2 : List Char)
    (hs : splitPipe (trimChars line.data) = [c0, c1, c2])
    (h0 : c0 ≠ []) (h1 : c1 ≠ []) (h2 : c2 ≠ []) :
    parseJobLine line
      = .job ⟨String.mk c0, String.mk c1, String.mk c2, []⟩ := by
  have ht : ¬ trimChars line.data = [] := by
    intro he
    rw [he] at hs
    simp [splitPipe] at hs
  unfold parseJobLine
  simp [ht, hs, h0, h1, h2]

theorem parseJobLine_blank_iff (line : String) :
    parseJobLine line = .blank ↔ trimChars line.data = [] := by
  unfold parseJobLine
  by_cases ht : trimChars line.data = []
  · simp [ht]
  · simp only [ht, if_false, iff_false]
    intro hb
    split at hb
    · split at hb
      · cases hb
      · cases hb
    · cases hb

/-! ## The claims -/

/-- C1: for every batch fed to the worker pool, after completion
`JobsDone + JobsFailed` equals the number of lines accepted as valid jobs;
each dequeued job changes the combined total by exactly one — the
provisional failure increment is reversed exactly on success — on every
exit path (input-open failure, pipeline failure, output-write failure,
success), for every oracle assignment. -/
theorem stats_count_each_job_once :
    (∀ (env : Env) (certs : Registry) (props : SignProps) (st : Stats)
        (j : Job),
      (listenStep env certs props st j).jobsDone
        + (listenStep env certs props st j).jobsFailed
        = st.jobsDone + st.jobsFailed + 1) ∧
    (∀ (env : Env) (certs : Registry) (props : SignProps) (st : Stats)
        (jobs : List Job),
      (runJobs env certs props st jobs).jobsDone
        + (runJobs env certs props st jobs).jobsFailed
        = st.jobsDone + st.jobsFailed + jobs.length) ∧
    (∀ (env : Env) (certs : Registry) (props : SignProps)
        (lines : List String),
      (runJobs env certs props ⟨0, 0⟩ (readJobsFromStdin lines)).jobsDone
        + (runJobs env certs props ⟨0, 0⟩ (readJobsFromStdin lines)).jobsFailed
        = (readJobsFromStdin lines).length) :=
  ⟨listenStep_sum,
   fun env certs props st jobs => runJobs_sum env certs props jobs st,
   fun env certs props lines => by
     have h := runJobs_sum env certs props (readJobsFromStdin lines) ⟨0, 0⟩
     simpa using h⟩

/-- C2: `ProcessDoc` with a certificate name missing from the registry
fails with the unknown-certificate error and performs no I/O at all against
the input (empty effect trace): the registry lookup precedes opening the
document. -/
theorem processDoc_unknown_cert_no_io (env : Env) (certs : Registry)
    (certName : String) (pr : SignProps) (password : List Nat) (b : Nat)
    (h : lookupCert certs certName = none) :
    ProcessDoc env certs certName pr password b
      = (.error (.unknownCert certName), []) := by
  unfold ProcessDoc
  rw [h]

theorem processDoc_unknown_cert_no_io_witness :
    ProcessDoc env0 [] ("x") zeroSignProps [] 0
      = (.error (.unknownCert ("x")), []) :=
  processDoc_unknown_cert_no_io env0 [] ("x") zeroSignProps [] 0 rfl

/-- C3 counterexample: with a readable archive that fails to decode,
`LoadPFX` ends in `log.Fatalf` — the `fatal` outcome, distinct from every
returning outcome — so it does not return a `DecodeError` to its caller as
the claim states. -/
theorem loadPFX_decode_fatal_cex :
    LoadPFX env0 [] ("a") ("f.pfx") ("wrong") = (.fatal, []) ∧
    LoadResult.fatal ≠ .errRead ∧ LoadResult.fatal ≠ .errDuplicate ∧
    LoadResult.fatal ≠ .ok := by
  decide

/-- C3 (amended): if the archive file cannot be read, `LoadPFX` returns the
read error to its caller with the registry unchanged; if the archive cannot
be decoded with the given password, the process terminates via `log.Fatalf`
instead of returning (the registry is still unchanged at termination). -/
theorem loadPFX_failure_paths (env : Env) (certs : Registry)
    (name path password : String) (h : lookupCert certs name = none) :
    (env.readFile path = none →
      LoadPFX env certs name path password = (.errRead, certs)) ∧
    (∀ data, env.readFile path = some data →
      env.decodeChain data password = none →
      LoadPFX env certs name path password = (.fatal, certs)) := by
  have hn : (lookupCert certs name).isSome = false := by rw [h]; rfl
  constructor
  · intro hr
    unfold LoadPFX
    simp [hn, hr]
  · intro data hr hd
    unfold LoadPFX
    simp [hn, hr, hd]

theorem loadPFX_failure_paths_witness :
    LoadPFX envNoFile [] ("a") ("p.pfx") ("pw") = (.errRead, []) ∧
    LoadPFX env0 [] ("a") ("p.pfx") ("bad") = (.fatal, []) :=
  ⟨(loadPFX_failure_paths envNoFile [] ("a") ("p.pfx") ("pw") rfl).1 rfl,
   (loadPFX_failure_paths env0 [] ("a") ("p.pfx") ("bad") rfl).2 [7] rfl
     (by decide)⟩

/-- C4 counterexample: a synchronous request naming an unknown certificate
is answered with status 500, not the client-error 400 stated by the
claim. -/
theorem handleSign_unknown_cert_cex :
    RespAction.writeHeader 500
        ∈ handleSignDocument env0 { certs := [], defaultProps := zeroSignProps }
            { propsField := "", certName := "nope", fileOk := true, file := 0 } ∧
    RespAction.writeHeader 400
        ∉ handleSignDocument env0 { certs := [], defaultProps := zeroSignProps }
            { propsField := "", certName := "nope", fileOk := true, file := 0 } := by
  decide

/-- C4 (amended): on an otherwise well-formed request, every `ProcessDoc`
failure — the unknown-certificate error included — produces the structured
error envelope with status 500; status 400 is used only for a malformed
props payload and a missing/invalid file field. -/
theorem handleSign_pipeline_err_500 (env : Env) (st : ServerState)
    (r : HttpReq) (e : PdfErr)
    (hp : r.propsField.utf8ByteSize = 0) (hf : r.fileOk = true)
    (he : (ProcessDoc env st.certs r.certName st.defaultProps [] r.file).1
      = .error e) :
    handleSignDocument env st r
      = sendErrorResponse ("Error processing document: " ++ pdfErrString e)
          500 := by
  unfold handleSignDocument
  simp [hp, hf, he]

theorem handleSign_pipeline_err_500_witness :
    handleSignDocument env0 { certs := [], defaultProps := zeroSignProps }
        { propsField := "", certName := "nope", fileOk := true, file := 0 }
      = sendErrorResponse
          ("Error processing document: unknown certificate 'nope'") 500 :=
  (handleSign_pipeline_err_500 env0
    { certs := [], defaultProps := zeroSignProps }
    { propsField := "", certName := "nope", fileOk := true, file := 0 }
    (.unknownCert ("nope")) rfl rfl rfl).trans (by decide)

/-- C5 (code bug): when the `props` payload is malformed the handler sends
the 400 error envelope but — the `return` being missing — falls through,
signs the document with the props value returned next to the error (the
zero value), and appends the signed PDF bytes to the same response after
the envelope, contradicting "no partial output". -/
theorem handleSign_malformed_props_bug :
    handleSignDocument env0 { certs := registry1, defaultProps := zeroSignProps }
        { propsField := "\x7b", certName := "c", fileOk := true, file := 0 }
      = [.setHeader ("Content-Type") ("application/json; charset=utf-8"),
         .writeHeader 400,
         .write (.jsonEnvelope ("error")
           ("Error reading JSON `request`: error parsing JSON properties file")),
         .setHeader ("content-type") ("application/pdf"),
         .write (.pdf [1, 100])] := by
  decide

/-- C6: loading under an already-registered name is rejected with an error,
the registry mapping is unchanged, and the originally loaded certificate
remains resolvable afterward. -/
theorem loadPFX_duplicate_rejected (env : Env) (certs : Registry)
    (name path password : String) (c : Certificate)
    (h : lookupCert certs name = some c) :
    LoadPFX env certs name path password = (.errDuplicate, certs) ∧
    lookupCert (LoadPFX env certs name path password).2 name = some c := by
  have h1 : LoadPFX env certs name path password = (.errDuplicate, certs) := by
    unfold LoadPFX
    rw [h]
    rfl
  exact ⟨h1, by rw [h1]; exact h⟩

theorem loadPFX_duplicate_rejected_witness :
    LoadPFX env0 registry1 ("c") ("p.pfx") ("pw") = (.errDuplicate, registry1) ∧
    lookupCert (LoadPFX env0 registry1 ("c") ("p.pfx") ("pw")).2 ("c")
      = some cert0 :=
  loadPFX_duplicate_rejected env0 registry1 ("c") ("p.pfx") ("pw") cert0
    (by decide)

/-- C7: with an empty password the lock stage is skipped entirely: a
`ProcessDoc` run equals the claim-side sign-only pipeline — the sign stage
applied to the reader of the original input bytes — and its trace holds no
encrypt, re-open or decrypt effect. -/
theorem processDoc_empty_password_sign_only (env : Env) (certs : Registry)
    (certName : String) (pr : SignProps) (b : Nat) (cert : Certificate)
    (h : lookupCert certs certName = some cert) :
    ProcessDoc env certs certName pr [] b = signOnlyPipeline env cert pr b ∧
    lockFree (ProcessDoc env certs certName pr [] b).2 = true :=
  ⟨processDoc_nil_eq env certs certName pr b cert h,
   processDoc_empty_password_lockFree env certs certName pr b⟩

theorem processDoc_empty_password_sign_only_witness :
    ProcessDoc env0 registry1 ("c") zeroSignProps [] 0
        = signOnlyPipeline env0 cert0 zeroSignProps 0 ∧
    lockFree (ProcessDoc env0 registry1 ("c") zeroSignProps [] 0).2 = true :=
  processDoc_empty_password_sign_only env0 registry1 ("c") zeroSignProps 0
    cert0 (by decide)

/-- C8 counterexample: `parseHexColor` accepts the 7-character string
`"#ff 000"`, which is not of the `#rrggbb` all-hex form, so parsing does
not succeed *exactly* on the claim's forms. -/
theorem parseHexColor_nonhex_accepted_cex :
    (parseHexColor ("#ff 000")).isSome = true ∧
    specHexColorForm ("#ff 000") = false := by
  decide

/-- C8 (amended): parsing succeeds on every 7-byte `#rrggbb` and 4-byte
`#rgb` all-hex string, with the documented values (a single digit d maps to
d*17, so `#ff0000` and `#f00` both give (255,0,0)); every string of another
byte length (e.g. 5 characters) fails; all produced channels lie in 0–255;
but the converse of the acceptance condition fails: the scanner also
accepts some non-hex 7-character strings such as `"#ff 000"`, because
spaces before a digit group are skipped and input after the third group is
ignored. -/
theorem parseHexColor_behavior :
    (∀ a b c d e f : Char, isHexDigit a = true → isHexDigit b = true →
      isHexDigit c = true → isHexDigit d = true → isHexDigit e = true →
      isHexDigit f = true →
      parseHexColor ⟨['#', a, b, c, d, e, f]⟩ =
        some (hexVal a * 16 + hexVal b, hexVal c * 16 + hexVal d,
              hexVal e * 16 + hexVal f)) ∧
    (∀ a b c : Char, isHexDigit a = true → isHexDigit b = true →
      isHexDigit c = true →
      parseHexColor ⟨['#', a, b, c]⟩ =
        some (hexVal a * 17, hexVal b * 17, hexVal c * 17)) ∧
    parseHexColor ("#ff0000") = some (255, 0, 0) ∧
    parseHexColor ("#f00") = some (255, 0, 0) ∧
    (∀ s : String, s.utf8ByteSize ≠ 7 → s.utf8ByteSize ≠ 4 →
      parseHexColor s = none) ∧
    (∀ (s : String) (r g b : Nat), parseHexColor s = some (r, g, b) →
      r ≤ 255 ∧ g ≤ 255 ∧ b ≤ 255) ∧
    parseHexColor ("#ff 000") = some (255, 0, 0) :=
  ⟨parseHexColor_hex7, parseHexColor_hex4, by decide, by decide,
   fun s h7 h4 => by unfold parseHexColor; simp [h7, h4],
   parseHexColor_bounds, by decide⟩

theorem parseHexColor_behavior_witness :
    parseHexColor ⟨['#', 'a', 'b', 'c', 'd', 'e', 'f']⟩ = some (171, 205, 239) ∧
    parseHexColor ("#ABC") = some (170, 187, 204) ∧
    parseHexColor ("#ff00") = none :=
  ⟨(parseHexColor_behavior.1 'a' 'b' 'c' 'd' 'e' 'f' (by decide) (by decide)
      (by decide) (by decide) (by decide) (by decide)).trans (by decide),
   (parseHexColor_behavior.2.1 'A' 'B' 'C' (by decide) (by decide)
      (by decide)).trans (by decide),
   parseHexColor_behavior.2.2.2.2.1 ("#ff00") (by decide) (by decide)⟩

/-- C9: a job is produced from a line exactly when the trimmed line splits
on the pipe into three non-empty fields, which become the job's certificate
name, input path and output path; blank lines are skipped silently, and a
malformed or blank line is skipped without stopping the reader. -/
theorem readJobs_line_filtering :
    (∀ line : String,
      (∃ j, parseJobLine line = .job j) ↔ specAcceptsLine line = true) ∧
    (∀ (line : String) (c0 c1 c2 : List Char),
      splitPipe (trimChars line.data) = [c0, c1, c2] → c0 ≠ [] → c1 ≠ [] →
      c2 ≠ [] →
      parseJobLine line
        = .job ⟨String.mk c0, String.mk c1, String.mk c2, []⟩) ∧
    (∀ line : String, parseJobLine line = .blank ↔ trimChars line.data = []) ∧
    (∀ (line : String) (ls : List String),
      (∀ j, parseJobLine line ≠ .job j) →
      readJobsFromStdin (line :: ls) = readJobsFromStdin ls) ∧
    (∀ (line : String) (ls : List String) (j : Job),
      parseJobLine line = .job j →
      readJobsFromStdin (line :: ls) = j :: readJobsFromStdin ls) :=
  ⟨parseJobLine_spec, parseJobLine_job_fields, parseJobLine_blank_iff,
   readJobs_cons_skip, readJobs_cons_job⟩

theorem readJobs_line_filtering_witness :
    parseJobLine (" a|b|c ") = .job ⟨("a"), ("b"), ("c"), []⟩ ∧
    readJobsFromStdin (["x||y"]) = [] := by
  constructor
  · exact readJobs_line_filtering.2.1 (" a|b|c ") ['a'] ['b'] ['c']
      (by decide) (by decide) (by decide) (by decide)
  · have hninv : ∀ j, parseJobLine ("x||y") ≠ .job j := by
      intro j hj
      rw [show parseJobLine ("x||y") = LineResult.invalid from by decide] at hj
      cases hj
    exact readJobs_line_filtering.2.2.2.1 ("x||y") [] hninv

/-- C10: every job the batch front end builds from a stdin line carries an
empty password, and consequently a batch-mode `ProcessDoc` run on such a
job never performs a lock, re-open or decrypt effect, under every oracle
assignment. -/
theorem batch_jobs_never_locked (lines : List String) (j : Job)
    (hj : j ∈ readJobsFromStdin lines) :
    j.password = [] ∧
    ∀ (env : Env) (certs : Registry) (props : SignProps) (f : Nat),
      lockFree (ProcessDoc env certs j.certName props j.password f).2
        = true := by
  have hp : j.password = [] := by
    obtain ⟨l, _, he⟩ := List.mem_filterMap.mp hj
    cases hpl : parseJobLine l with
    | blank => rw [hpl] at he; cases he
    | invalid => rw [hpl] at he; cases he
    | job j2 =>
      rw [hpl] at he
      simp only [Option.some.injEq] at he
      subst he
      exact parseJobLine_job_shape l j2 hpl
  refine ⟨hp, fun env certs props f => ?_⟩
  rw [hp]
  exact processDoc_empty_password_lockFree env certs j.certName props f

theorem batch_jobs_never_locked_witness :
    (Job.mk ("c") ("in") ("out") []).password = [] ∧
    lockFree (ProcessDoc env0 registry1 ("c") zeroSignProps [] 0).2 = true :=
  have h := batch_jobs_never_locked (["c|in|out"])
    (Job.mk ("c") ("in") ("out") []) (by decide)
  ⟨h.1, h.2 env0 registry1 zeroSignProps 0⟩

end Pfxsigner
